import Mathlib

/-!
Verification of the keyframe editor's audio-analysis and view-synchronization
core (spectrogram builder, bi-log zoom slider, hi-res tile manager, renderer).

Shallow embedding conventions:
* JavaScript Numbers that only flow through control-flow decisions, sample
  counting and view geometry are embedded as rationals; the signal pipeline
  (Hann window, FFT, magnitudes, log-normalization) and the bi-log zoom curve
  are embedded over the reals, since they use cos, sqrt, log and pow.
* JavaScript objects become structures; fields a code path does not set
  (for example viewStart on the CPU spectrogram result) become Option fields
  set to none, and arithmetic on such a missing field (NaN in JavaScript,
  where every comparison is false) is embedded by matching on the Option.
* Thrown exceptions become Except values.
-/

namespace Spec2Proof

/-! ## utils.js: clamp and floorPow2 -/

/-- clamp from keyframe_editor/js/modules/utils.js: Math.min(hi, Math.max(lo, v)). -/
def clampR (v lo hi : ℝ) : ℝ := min hi (max lo v)

/-- clamp from utils.js, rational instance (used by view/tile bookkeeping code). -/
def clampQ (v lo hi : ℚ) : ℚ := min hi (max lo v)

/-- floorPow2 from utils.js: the loop p = 1; while (p << 1 <= n) p <<= 2 returns the
largest power of two that is at most n, and 1 when n < 2.  Since p*2 <= n iff
p*2 <= floor n for integer p, the loop result equals 2 ^ (Nat.log 2 (floor n)). -/
def floorPow2 (n : ℚ) : ℕ := 2 ^ Nat.log 2 ⌊n⌋.toNat

/-! ## utils.js: bi-log slider mapping -/

/-- Mapping object built by createBiLogMapping in utils.js. -/
structure BiLogMap where
  lo : ℝ
  hi : ℝ
  steps : ℝ
  mid : ℝ

/-- createBiLogMapping from utils.js: records min, max, steps and mid = steps / 2.
The JavaScript fields min and max are called lo and hi here. -/
noncomputable def createBiLogMapping (mn mx st : ℝ) : BiLogMap := ⟨mn, mx, st, st / 2⟩

/-- factorFromSlider from utils.js: clamp the slider value to [0, steps]; at the
midpoint return 1; below it return min * (1/min)^(v/mid); above it return
max^((v-mid)/mid).  Real exponentiation embeds Math.pow. -/
noncomputable def factorFromSlider (value : ℝ) (map : BiLogMap) : ℝ :=
  let v := clampR value 0 map.steps
  if v = map.mid then 1
  else if v < map.mid then map.lo * (1 / map.lo) ^ (v / map.mid)
  else map.hi ^ ((v - map.mid) / map.mid)

/-- sliderFromFactor from utils.js: clamp the factor to [min, max]; if it is within
1e-12 of 1 return round(mid); below 1 return round(log(f/min)/log(1/min) * mid);
otherwise return round(mid + log(f)/log(max) * mid).  Math.round embeds as
round (half toward positive infinity in both). -/
noncomputable def sliderFromFactor (factor : ℝ) (map : BiLogMap) : ℤ :=
  let f := clampR factor map.lo map.hi
  if |f - 1| < 1e-12 then round map.mid
  else if f < 1 then round (Real.log (f / map.lo) / Real.log (1 / map.lo) * map.mid)
  else round (map.mid + Real.log f / Real.log map.hi * map.mid)

/-- The zoom mapping instantiated by createZoomConfig(2048) in the UI module:
createBiLogMapping({ min: 0.125, max: 256, steps: 200 }). -/
noncomputable def zoomMap : BiLogMap := createBiLogMapping 0.125 256 200

/-- SNAP_RANGE from the UI module: factors within 0.1 of 1 snap to exactly 1. -/
def snapRange : ℝ := 0.1

/-- The factor chosen by applyFromSlider inside bindBiLogSlider: round and clamp the
raw input value, map it through factorFromSlider, then snap to 1 when the factor
is within SNAP_RANGE of 1.  This is the value passed to the onChange consumer. -/
noncomputable def applyFromSliderFactor (rawVal : ℝ) (map : BiLogMap) : ℝ :=
  let clamped := clampR ((round rawVal : ℤ) : ℝ) 0 map.steps
  let factor := factorFromSlider clamped map
  if |factor - 1| ≤ snapRange then 1 else factor

/-- currentSliderFactor from the main UI file: read the slider's value, map it
through factorFromSlider and snap to 1 when within SNAP_RANGE of 1. -/
noncomputable def currentSliderFactor (raw : ℝ) (map : BiLogMap) : ℝ :=
  let f := factorFromSlider raw map
  if |f - 1| ≤ snapRange then 1 else f

/-! ## Spectrogram module: data model -/

/-- Decoded audio input, as the spectrogram code reads a Web Audio AudioBuffer:
sampleRate, length (samples per channel) and per-channel sample accessors
(getChannelData(ch)[idx] becomes an application of the channel function). -/
structure AudioBuffer where
  sampleRate : ℕ
  length : ℕ
  channels : List (ℕ → ℝ)

/-- numberOfChannels property of an AudioBuffer. -/
def AudioBuffer.numberOfChannels (b : AudioBuffer) : ℕ := b.channels.length

/-- duration property of an AudioBuffer: length / sampleRate seconds. -/
def AudioBuffer.durationQ (b : AudioBuffer) : ℚ := (b.length : ℚ) / b.sampleRate

/-- Errors thrown by the spectrogram module: the two throw sites of
computeSpectrogramCPU and the power-of-two check of createFFT. -/
inductive SpecError where
  | segmentTooShort : SpecError
  | insufficientLength : SpecError
  | invalidSize : SpecError
deriving DecidableEq

/-- The error class the specification calls InsufficientLength: both throw sites of
computeSpectrogramCPU (segment shorter than the FFT size, and a non-positive
frame count). -/
def SpecError.isInsufficient : SpecError → Bool
  | .segmentTooShort => true
  | .insufficientLength => true
  | .invalidSize => false

/-- Result object of one spectrogram computation.  The CPU path does not set the
viewStart and viewDuration fields (undefined in JavaScript), hence Option. -/
structure Spectrogram where
  data : List ℝ
  frames : ℕ
  bins : ℕ
  hopSize : ℕ
  sampleRate : ℕ
  duration : ℚ
  totalDuration : ℚ
  sliceStart : ℚ
  sliceDuration : ℚ
  viewStart : Option ℚ
  viewDuration : Option ℚ

/-! ## Spectrogram module: windowing, region clamping -/

/-- buildHann from the spectrogram module: w[i] = 0.5 * (1 - cos(2*pi*i/(N-1))). -/
noncomputable def hannWindow (fftSize i : ℕ) : ℝ :=
  0.5 * (1 - Real.cos (2 * Real.pi * i / ((fftSize : ℝ) - 1)))

/-- startSample = Math.max(0, Math.floor(start * sampleRate)). -/
def startSampleZ (start : ℚ) (sampleRate : ℕ) : ℤ := max 0 ⌊start * sampleRate⌋

/-- endSample = Math.min(audioBuffer.length, Math.ceil((start + duration) * sampleRate)). -/
def endSampleZ (b : AudioBuffer) (start duration : ℚ) : ℤ :=
  min (b.length : ℤ) ⌈(start + duration) * b.sampleRate⌉

/-- segmentLen = Math.max(0, endSample - startSample). -/
def segmentLen (b : AudioBuffer) (start duration : ℚ) : ℕ :=
  (endSampleZ b start duration - startSampleZ start b.sampleRate).toNat

/-- The frame count both paths compute: Math.floor((segmentLen - fftSize) / hopSize) + 1.
The builder is only invoked with positive hop sizes; a zero hop would make the
JavaScript division produce an infinity. -/
def framesFormulaZ (segLen hopSize fftSize : ℕ) : ℤ :=
  ⌊((segLen : ℚ) - fftSize) / hopSize⌋ + 1

/-- Downmixed sample mono[i] built by computeSpectrogramCPU: the channels are summed
and then multiplied once by invCh = 1 / Math.max(1, channelCount). -/
noncomputable def monoAt (b : AudioBuffer) (startSample i : ℕ) : ℝ :=
  (b.channels.map (fun ch => ch (startSample + i))).sum * (1 / max 1 (b.numberOfChannels : ℝ))

/-! ## Spectrogram module: CPU FFT kernel (createFFT) -/

/-- One iteration of the bit-reversal loop of createFFT: y = (y << 1) | (x & 1); x >>= 1. -/
def bitrevStep (p : ℕ × ℕ) : ℕ × ℕ := (p.1 / 2, 2 * p.2 + p.1 % 2)

/-- rev[i] from createFFT (also the bitrev function of the WebGPU shader, which
computes the same low-bits reversal): reverse the low levels bits of i. -/
def bitrev (levels i : ℕ) : ℕ :=
  ((List.range levels).foldl (fun p _ => bitrevStep p) (i, 0)).2

/-- In-place FFT state: the re and im arrays of createFFT.transform. -/
abbrev FFTState := List ℝ × List ℝ

/-- The three-statement swap of createFFT.transform (tr = a[i]; a[i] = a[j]; a[j] = tr). -/
def swapAt (l : List ℝ) (i j : ℕ) : List ℝ := (l.set i (l.getD j 0)).set j (l.getD i 0)

/-- One butterfly of the radix-2 pass, in source statement order: compute tre and tim
from index i2, write index i2 from index i1, then add into index i1.  The same
statement sequence appears in createFFT.transform and in the WebGPU shader. -/
def butterfly (s : FFTState) (i1 i2 : ℕ) (c sn : ℝ) : FFTState :=
  let tre := s.1.getD i2 0 * c - s.2.getD i2 0 * sn
  let tim := s.1.getD i2 0 * sn + s.2.getD i2 0 * c
  let re1 := s.1.set i2 (s.1.getD i1 0 - tre)
  let im1 := s.2.set i2 (s.2.getD i1 0 - tim)
  let re2 := re1.set i1 (re1.getD i1 0 + tre)
  let im2 := im1.set i1 (im1.getD i1 0 + tim)
  (re2, im2)

/-- The bit-reversal permutation pass of createFFT.transform (swap when rev[i] > i). -/
def fftPermute (n levels : ℕ) (s : FFTState) : FFTState :=
  (List.range n).foldl (fun st i =>
    let j := bitrev levels i
    if i < j then (swapAt st.1 i j, swapAt st.2 i j) else st) s

/-- One stage (fixed len) of createFFT.transform: for i = 0, len, 2*len, ... < n and
j < half, butterfly indices (i+j, i+j+half) with the twiddle tables
cosTable[k] = cos(-2*pi*k/n), sinTable[k] = sin(-2*pi*k/n) at k = j * (n/len). -/
noncomputable def cpuStagePass (n len : ℕ) (s : FFTState) : FFTState :=
  let half := len / 2
  let step := n / len
  (List.range ((n + len - 1) / len)).foldl (fun st bi =>
    (List.range half).foldl (fun st2 j =>
      butterfly st2 (bi * len + j) (bi * len + j + half)
        (Real.cos (-2 * Real.pi * (j * step) / n))
        (Real.sin (-2 * Real.pi * (j * step) / n))) st) s

/-- Stage lengths 2, 4, ..., n of the while loop (len = 2; len <= n; len <<= 1). -/
def stageLens (n : ℕ) : List ℕ := (List.range (Nat.log2 n)).map (fun s => 2 ^ (s + 1))

/-- createFFT(size).transform(re, im): bit-reversal permutation followed by the
iterative radix-2 Cooley-Tukey stages. -/
noncomputable def fftTransform (n : ℕ) (s : FFTState) : FFTState :=
  (stageLens n).foldl (fun st len => cpuStagePass n len st)
    (fftPermute n (Nat.log2 n) s)

/-! ## Spectrogram module: CPU path -/

/-- The re/im input of one CPU frame: re[i] = (idx < mono.length ? mono[idx] : 0) * hann[i]
with idx = frame * hopSize + i, and im[i] = 0. -/
noncomputable def cpuFrameInput (b : AudioBuffer) (startSample segLen fftSize hopSize frame : ℕ) :
    FFTState :=
  ((List.range fftSize).map (fun i =>
      (if frame * hopSize + i < segLen then monoAt b startSample (frame * hopSize + i) else 0)
        * hannWindow fftSize i),
   (List.range fftSize).map (fun _ => (0 : ℝ)))

/-- The bins magnitudes Math.hypot(re[b], im[b]) of one CPU frame after the FFT. -/
noncomputable def cpuFrameMags (b : AudioBuffer) (startSample segLen fftSize hopSize frame : ℕ) :
    List ℝ :=
  let s := fftTransform fftSize (cpuFrameInput b startSample segLen fftSize hopSize frame)
  (List.range (fftSize / 2)).map (fun bb =>
    Real.sqrt ((s.1.getD bb 0) ^ 2 + (s.2.getD bb 0) ^ 2))

/-- The row-major magnitude array data[frame * bins + b] before normalization. -/
noncomputable def cpuRawData (b : AudioBuffer) (startSample segLen fftSize hopSize frames : ℕ) :
    List ℝ :=
  (List.range frames).flatMap (fun f => cpuFrameMags b startSample segLen fftSize hopSize f)

/-- The running peak of both paths: peak starts at 1e-9 and each magnitude replaces
it when strictly greater. -/
noncomputable def peakOf (l : List ℝ) : ℝ := l.foldl (fun p m => if p < m then m else p) 1e-9

/-- minDb constant of the normalization pass. -/
def minDb : ℝ := -85

/-- The log-normalization both paths apply to every cell:
db = 20 * log10(mag / peak + 1e-12), then clamp((db - minDb) / (-minDb), 0, 1). -/
noncomputable def normalizeCell (peak m : ℝ) : ℝ :=
  clampR ((20 * Real.logb 10 (m / peak + 1e-12) - minDb) / (-minDb)) 0 1

/-- computeSpectrogramCPU from the spectrogram module.  The two throws become
error values, in source order: the segment-length check, then the frame-count
check, then createFFT's power-of-two check (size & (size - 1)). -/
noncomputable def computeSpectrogramCPU (b : AudioBuffer) (start duration : ℚ)
    (hopSize fftSize : ℕ) : Except SpecError Spectrogram :=
  let startSample := (startSampleZ start b.sampleRate).toNat
  let segLen := segmentLen b start duration
  if segLen < fftSize then .error .segmentTooShort
  else
    let framesZ := framesFormulaZ segLen hopSize fftSize
    if framesZ ≤ 0 then .error .insufficientLength
    else if ¬ (fftSize &&& (fftSize - 1) = 0) then .error .invalidSize
    else
      let frames := framesZ.toNat
      let raw := cpuRawData b startSample segLen fftSize hopSize frames
      .ok { data := raw.map (normalizeCell (peakOf raw))
            frames := frames
            bins := fftSize / 2
            hopSize := hopSize
            sampleRate := b.sampleRate
            duration := b.durationQ
            totalDuration := b.durationQ
            sliceStart := start
            sliceDuration := duration
            viewStart := none
            viewDuration := none }

/-! ## Spectrogram module: WebGPU path

The WGSL shader is embedded per frame: it runs the identical bit-reversal
permutation and radix-2 butterfly sequence as createFFT, with the twiddle
computed inline as cos(-(2*pi/m)*j), sin(-(2*pi/m)*j), FFT_SIZE fixed to 1024,
LOGN to 10 and BINS to 512.  The strided thread loops cover each index exactly
once and every phase's writes touch disjoint locations between barriers, so the
sequential fold computes the same values. -/

/-- One stage (fixed m) of the shader: for every k < 1024 with j = k & (m - 1) < half,
butterfly indices (k, k + half) (block = k - j, idx = block + j = k). -/
noncomputable def gpuStagePass (m : ℕ) (s : FFTState) : FFTState :=
  let half := m / 2
  (List.range 1024).foldl (fun st k =>
    let j := k % m
    if j < half then
      butterfly st k (k + half)
        (Real.cos (-(2 * Real.pi / m) * j)) (Real.sin (-(2 * Real.pi / m) * j))
    else st) s

/-- The shader body for one frame: load the windowed input with zero imaginary part,
bit-reversal permute, then the stages m = 2, 4, ..., 1024. -/
noncomputable def gpuFftFrame (input : List ℝ) : FFTState :=
  let s0 : FFTState := (input, (List.range 1024).map (fun _ => (0 : ℝ)))
  let permuted := (List.range 1024).foldl (fun st i =>
    let j := bitrev 10 i
    if i < j then (swapAt st.1 i j, swapAt st.2 i j) else st) s0
  ((List.range 10).map (fun st => 2 ^ (st + 1))).foldl (fun st m => gpuStagePass m st) permuted

/-- The windowed frame slice computeSpectrogramWebGPU uploads:
frameData[frame * fftSize + i] = sample * hann[i], where sample averages the
channels when idx = startSample + frame * hopSize + i < endSample and is 0
otherwise.  This path divides by channelCount directly (not max(1, count)). -/
noncomputable def gpuFrameInput (b : AudioBuffer) (startSample endSample fftSize hopSize frame : ℕ) :
    List ℝ :=
  (List.range fftSize).map (fun i =>
    (if startSample + frame * hopSize + i < endSample then
        (b.channels.map (fun ch => ch (startSample + frame * hopSize + i))).sum
          / b.numberOfChannels
      else 0) * hannWindow fftSize i)

/-- The 512 magnitudes sqrt(re*re + im*im) the shader writes for one frame. -/
noncomputable def gpuFrameMags (b : AudioBuffer) (startSample endSample hopSize frame : ℕ) :
    List ℝ :=
  let s := gpuFftFrame (gpuFrameInput b startSample endSample 1024 hopSize frame)
  (List.range 512).map (fun bb =>
    Real.sqrt ((s.1.getD bb 0) ^ 2 + (s.2.getD bb 0) ^ 2))

/-- computeSpectrogramWebGPU from the spectrogram module, modelled with the GPU
device available (a missing device also returns null in the source).  Returns
null unless fftSize is 1024; computes frames = Math.max(1, floor(...) + 1);
returns null when frames <= 0 or the segment is shorter than fftSize; otherwise
normalizes exactly as the CPU path and additionally sets viewStart and
viewDuration. -/
noncomputable def computeSpectrogramWebGPU (b : AudioBuffer) (start duration : ℚ)
    (hopSize fftSize : ℕ) : Option Spectrogram :=
  if fftSize ≠ 1024 then none
  else
    let startSample := (startSampleZ start b.sampleRate).toNat
    let endSample := (endSampleZ b start duration).toNat
    let segLen := segmentLen b start duration
    let framesZ := max 1 (framesFormulaZ segLen hopSize fftSize)
    if framesZ ≤ 0 ∨ segLen < fftSize then none
    else
      let frames := framesZ.toNat
      let raw := (List.range frames).flatMap (fun f => gpuFrameMags b startSample endSample hopSize f)
      some { data := raw.map (normalizeCell (peakOf raw))
             frames := frames
             bins := fftSize / 2
             hopSize := hopSize
             sampleRate := b.sampleRate
             duration := b.durationQ
             totalDuration := b.durationQ
             sliceStart := start
             sliceDuration := duration
             viewStart := some start
             viewDuration := some duration }

/-! ## UI module: tile manager state -/

/-- The mutable globals of the spectrogram view code that the tile manager reads
and writes: the full-track spectrogram, the cached hi-res tile, the pending
flag, the debounce timestamp and the latest-issued request token. -/
structure TileState where
  spectrogram : Option Spectrogram
  hiResSpec : Option Spectrogram
  hiResPending : Bool
  lastHiResRequestedAt : ℚ
  hiResRequestId : ℕ

/-- The hop target both maybeRequestHiRes and buildHiResSpectrogram compute:
Math.max(32, Math.min(4096, floorPow2(sr / ppsCss))). -/
def hopTarget (sr : ℕ) (ppsCss : ℚ) : ℕ := max 32 (min 4096 (floorPow2 ((sr : ℚ) / ppsCss)))

/-- shouldUseHiRes: false without a full-track spectrogram or a usable
pixels-per-second value; requires the current samples-per-pixel to be below
baseSPP (zoomed in) and the full-track time-per-frame to exceed 0.8 / ppsCss. -/
def shouldUseHiRes (st : TileState) (spp baseSPP ppsCss : ℚ) : Bool :=
  match st.spectrogram with
  | none => false
  | some sp =>
    if ppsCss = 0 then false
    else if ¬ (spp < baseSPP) then false
    else decide ((sp.hopSize : ℚ) / sp.sampleRate > 1 / ppsCss * 0.8)

/-- hiResMatches: the cached tile covers the requested window when its stored
viewStart and viewDuration are within eps = 1/60 and its hopSize is equal.
A tile whose viewStart or viewDuration field is missing (the CPU path does not
set them, so the JavaScript subtraction yields NaN and every comparison is
false) never matches. -/
def hiResMatches (hiResSpec : Option Spectrogram) (viewStart viewDuration : ℚ)
    (hopSize : ℕ) : Bool :=
  match hiResSpec with
  | none => false
  | some s =>
    match s.viewStart, s.viewDuration with
    | some vs, some vd =>
        decide (|vs - viewStart| < 1 / 60) && decide (|vd - viewDuration| < 1 / 60)
          && (s.hopSize == hopSize)
    | _, _ => false

/-- A hi-res build request handed to computeSpectrogram, with the token taken at
issue time (token = ++hiResRequestId). -/
structure BuildRequest where
  start : ℚ
  duration : ℚ
  hopSize : ℕ
  token : ℕ

/-- The synchronous prefix of buildHiResSpectrogram, up to the point where the
asynchronous computation is started: the enable/audio/pending guards, the
hop-target recomputation, the hiResMatches reuse check, and on issue the token
bump, the pending flag and the debounce timestamp. -/
def buildHiResStart (st : TileState) (enabled hasAudio : Bool) (sr : ℕ)
    (viewStart viewDuration ppsCss now : ℚ) : TileState × Option BuildRequest :=
  if ¬ enabled then (st, none)
  else if ¬ hasAudio ∨ ppsCss = 0 ∨ ¬ (0 < viewDuration) then (st, none)
  else if st.hiResPending then (st, none)
  else
    let hop := hopTarget sr ppsCss
    if hiResMatches st.hiResSpec viewStart viewDuration hop then (st, none)
    else
      let token := st.hiResRequestId + 1
      ({ st with hiResRequestId := token, hiResPending := true,
                 lastHiResRequestedAt := now },
       some ⟨viewStart, viewDuration, hop, token⟩)

/-- maybeRequestHiRes: the warranted check (shouldUseHiRes), the audio and
duration guards, the hiResMatches reuse check against the current hop target,
the pending and 120 ms debounce guards, then the 25 percent view expansion and
the call into buildHiResSpectrogram. -/
def maybeRequestHiRes (st : TileState) (enabled hasAudio : Bool) (sr : ℕ)
    (totalDur spp baseSPP viewStart viewDuration ppsCss now : ℚ) :
    TileState × Option BuildRequest :=
  if ¬ shouldUseHiRes st spp baseSPP ppsCss then (st, none)
  else if ¬ hasAudio then (st, none)
  else if ¬ (0 < totalDur) then (st, none)
  else
    let hop := hopTarget sr ppsCss
    if hiResMatches st.hiResSpec viewStart viewDuration hop then (st, none)
    else if st.hiResPending then (st, none)
    else if now - st.lastHiResRequestedAt < 120 then (st, none)
    else
      let pad := min (viewDuration * 0.25) (totalDur * 0.25)
      let start := clampQ (viewStart - pad) 0 (max 0 (totalDur - viewDuration))
      let dur := min (viewDuration * 1.5) totalDur
      buildHiResStart st enabled hasAudio sr start dur ppsCss now

/-- The completion continuation of buildHiResSpectrogram: on failure (result
none) nothing is installed; on success the tile is installed only when the
carried token still equals the latest-issued token; the finally block always
clears the pending flag. -/
def hiResComplete (st : TileState) (token : ℕ) (result : Option Spectrogram) : TileState :=
  match result with
  | none => { st with hiResPending := false }
  | some spec =>
    if token ≠ st.hiResRequestId then { st with hiResPending := false }
    else { st with hiResSpec := some spec, hiResPending := false }

/-! ## UI module: token cancellation discipline

Both buildSpectrogram (spectrogramRequestId) and buildHiResSpectrogram
(hiResRequestId) follow the same protocol: issuing a run bumps the latest
token and binds the run to the new value; a completing run installs its
result only when its token still equals the latest token. -/

/-- The token-visible state of one builder slot: the latest issued token and the
token carried by the currently installed spectrogram (none before the first
successful install). -/
structure TokenState where
  latest : ℕ
  installedToken : Option ℕ

/-- An event of the token protocol: issuing a new request (token = ++latest) or a
run completing with the token it was bound to. -/
inductive TokenEvent where
  | issue : TokenEvent
  | complete : ℕ → TokenEvent

/-- One step of the token protocol: issue bumps the latest token; complete
installs its token exactly when it equals the latest token and is otherwise
discarded without any state change. -/
def tokenStep (s : TokenState) (e : TokenEvent) : TokenState :=
  match e with
  | .issue => ⟨s.latest + 1, s.installedToken⟩
  | .complete t => if t = s.latest then ⟨s.latest, some t⟩ else s

/-- Running the token protocol over a sequence of events. -/
def tokenRun (s : TokenState) (evs : List TokenEvent) : TokenState := evs.foldl tokenStep s

/-- The token invariant: the installed token never exceeds the latest issued one. -/
def TokenState.inv (s : TokenState) : Prop := s.installedToken.getD 0 ≤ s.latest

/-! ## UI module: renderer (drawSpectrogram) -/

/-- The six color stops of buildHeatLut, with rational positions and integer RGB. -/
def heatStops : List (ℚ × ℤ × ℤ × ℤ) :=
  [(0, 5, 8, 17), (0.25, 32, 54, 120), (0.5, 69, 137, 205),
   (0.7, 255, 209, 102), (0.85, 255, 128, 96), (1, 255, 255, 255)]

/-- The stop pair buildHeatLut selects for position t: the first adjacent pair
with stops[j].t <= t <= stops[j+1].t, defaulting to (first, last). -/
def heatPairFor (t : ℚ) : (ℚ × ℤ × ℤ × ℤ) × (ℚ × ℤ × ℤ × ℤ) :=
  let dflt : ℚ × ℤ × ℤ × ℤ := (0, 0, 0, 0)
  match (List.range (heatStops.length - 1)).find? (fun j =>
      decide ((heatStops.getD j dflt).1 ≤ t) && decide (t ≤ (heatStops.getD (j + 1) dflt).1)) with
  | some j => (heatStops.getD j dflt, heatStops.getD (j + 1) dflt)
  | none => (heatStops.getD 0 dflt, heatStops.getD (heatStops.length - 1) dflt)

/-- The linear mix of buildHeatLut: Math.round(x + (y - x) * localT). -/
def heatMix (x y : ℤ) (localT : ℚ) : ℤ := round ((x : ℚ) + ((y : ℚ) - x) * localT)

/-- HEAT_LUT[i]: interpolate between the selected stops at t = i / 255 with
localT = (t - a.t) / Math.max(1e-6, b.t - a.t). -/
def heatLut (i : ℕ) : ℤ × ℤ × ℤ :=
  let t : ℚ := (i : ℚ) / 255
  let p := heatPairFor t
  let localT := (t - p.1.1) / max (1 / 1000000) (p.2.1 - p.1.1)
  (heatMix p.1.2.1 p.2.2.1 localT, heatMix p.1.2.2.1 p.2.2.2.1 localT,
   heatMix p.1.2.2.2 p.2.2.2.2 localT)

/-- The target canvas content produced by one drawSpectrogram call: device pixel
dimensions and an RGBA value per coordinate.  ctx.clearRect leaves every pixel
at transparent black (0, 0, 0, 0). -/
structure RenderedImage where
  width : ℕ
  height : ℕ
  pixel : ℕ → ℕ → ℤ × ℤ × ℤ × ℤ

/-- The canvas after ctx.clearRect and no further writes. -/
def clearedImage (w h : ℕ) : RenderedImage := ⟨w, h, fun _ _ => (0, 0, 0, 0)⟩

/-- The spec variable inside drawSpectrogram: the cached hi-res tile when
shouldUseHiRes holds and it matches the current window at the current hop
target, the full-track spectrogram otherwise. -/
def selectedSpec (st : TileState) (spp baseSPP viewStart viewDuration ppsCss : ℚ)
    (sr : ℕ) : Option Spectrogram :=
  let useHiRes := shouldUseHiRes st spp baseSPP ppsCss
    && hiResMatches st.hiResSpec viewStart viewDuration (hopTarget sr ppsCss)
  if useHiRes && st.hiResSpec.isSome then st.hiResSpec else st.spectrogram

/-- One spectrogram pixel of the paint loop at device column x and row y:
t = vs + x / ppsDev, frame = clamp(round((t - sliceStart) / timePerFrame), 0,
frames - 1), bin = bins - 1 - min(bins - 1, round(y * binScale)), colored
through HEAT_LUT[min(255, max(0, floor(v * 255)))] with alpha 255. -/
noncomputable def paintedPixel (spec : Spectrogram) (vs ppsDev binScale : ℚ)
    (x y : ℕ) : ℤ × ℤ × ℤ × ℤ :=
  let timePerFrame : ℚ := (spec.hopSize : ℚ) / spec.sampleRate
  let t : ℚ := vs + (x : ℚ) / ppsDev
  let frameIdx : ℤ := min ((spec.frames : ℤ) - 1) (max 0 (round ((t - spec.sliceStart) / timePerFrame)))
  let bin : ℕ := spec.bins - 1 - min (spec.bins - 1) (round ((y : ℚ) * binScale)).toNat
  let v : ℝ := spec.data.getD (frameIdx.toNat * spec.bins + bin) 0
  let li : ℕ := min 255 (max 0 ⌊v * 255⌋).toNat
  let c := heatLut li
  (c.1, c.2.1, c.2.2, 255)

/-- drawSpectrogram, modelled as the resulting canvas content given the current
tile state and view.  The early returns (no spectrogram object, zero frames or
bins, unusable pixels-per-second) leave the canvas cleared; otherwise columns
x < drawWidth are painted through the LUT and the remaining columns stay
cleared (createImageData starts zeroed and putImageData replaces the canvas). -/
noncomputable def drawSpectrogramModel (st : TileState)
    (spp baseSPP viewStart viewDuration ppsCss dpr : ℚ) (sr width height : ℕ) :
    RenderedImage :=
  match st.spectrogram with
  | none => clearedImage width height
  | some sp =>
    if sp.frames = 0 ∨ sp.bins = 0 then clearedImage width height
    else if ppsCss = 0 then clearedImage width height
    else
      match selectedSpec st spp baseSPP viewStart viewDuration ppsCss sr with
      | none => clearedImage width height
      | some spec =>
        let vd0 := if 0 < viewDuration then viewDuration else spec.totalDuration
        let vd := min vd0 spec.totalDuration
        let vs := clampQ viewStart 0 (max 0 (spec.totalDuration - vd))
        let ppsDev := ppsCss * dpr
        let drawWidth := min width (round (vd * ppsDev)).toNat
        let binScale : ℚ := if 1 < spec.bins then ((spec.bins : ℚ) - 1) / max 1 ((height : ℚ) - 1) else 0
        ⟨width, height, fun x y =>
          if x < drawWidth ∧ y < height then paintedPixel spec vs ppsDev binScale x y
          else (0, 0, 0, 0)⟩

/-! ## Concrete inputs used by the end-to-end checks -/

/-- Predicate: every entry of the list is 0 (an all-zero Float32Array). -/
def ZeroList (l : List ℝ) : Prop := ∀ x ∈ l, x = 0

/-- Predicate: both FFT buffers are all zero. -/
def ZeroState (s : FFTState) : Prop := ZeroList s.1 ∧ ZeroList s.2

/-- The silence scenario input: 2 seconds of zeros at 48000 Hz, one channel. -/
def silenceBuffer : AudioBuffer := ⟨48000, 96000, [fun _ => (0 : ℝ)]⟩

/-- What computeSpectrogramCPU returns on the silence scenario with hop 960 and
fft 1024: 99 frames of 512 all-zero bins and no viewStart/viewDuration. -/
def silenceSpec : Spectrogram :=
  { data := List.replicate (99 * 512) 0
    frames := 99
    bins := 512
    hopSize := 960
    sampleRate := 48000
    duration := 2
    totalDuration := 2
    sliceStart := 0
    sliceDuration := 2
    viewStart := none
    viewDuration := none }

/-- What computeSpectrogramWebGPU returns on the silence scenario: the same
frames and cells, with viewStart and viewDuration set. -/
def gpuSilenceSpec : Spectrogram :=
  { data := List.replicate (99 * 512) 0
    frames := 99
    bins := 512
    hopSize := 960
    sampleRate := 48000
    duration := 2
    totalDuration := 2
    sliceStart := 0
    sliceDuration := 2
    viewStart := some 0
    viewDuration := some 2 }

/-- The short-clip scenario input: 512 samples of zeros at 48000 Hz, one channel. -/
def shortBuffer : AudioBuffer := ⟨48000, 512, [fun _ => (0 : ℝ)]⟩

/-- Predicate: every channel of the buffer is identically zero. -/
def ZeroBuffer (b : AudioBuffer) : Prop := ∀ ch ∈ b.channels, ∀ i, ch i = 0

/-- A concrete full-track spectrogram used to exercise the tile manager: the
hop the facade uses at 48000 Hz (max(256, floor(48000 * 0.02)) = 960). -/
def demoFullSpec : Spectrogram :=
  ⟨[], 100, 512, 960, 48000, 10, 10, 0, 10, none, none⟩

/-- A concrete cached hi-res tile covering the window (1, 2) at hop 128 (the hop
target for ppsCss = 250 at 48000 Hz). -/
def demoHiResSpec : Spectrogram :=
  ⟨[], 375, 512, 128, 48000, 10, 10, 1, 2, some 1, some 2⟩

/-- A tile-manager state holding the two spectrograms above, not pending, with
latest token 5. -/
def demoTileState : TileState := ⟨some demoFullSpec, some demoHiResSpec, false, 0, 5⟩

/-- The tile-manager state before any audio is loaded. -/
def emptyTileState : TileState := ⟨none, none, false, 0, 0⟩

/-! ## Theorems for claim C6 (snap law) -/

theorem clampR_self_of_mem {v lo hi : ℝ} (h1 : lo ≤ v) (h2 : v ≤ hi) :
    clampR v lo hi = v := by
  unfold clampR
  rw [max_eq_right h1, min_eq_right h2]

/-- Claim C6: for every slider position whose mapped zoom factor f satisfies
|f - 1| ≤ 0.1, the factor the slider logic chooses (both in currentSliderFactor
and in bindBiLogSlider's applyFromSlider, i.e. the value passed to onChange)
is exactly 1. -/
theorem C6_snap_law (raw : ℝ) :
    (|factorFromSlider raw zoomMap - 1| ≤ 0.1 →
      currentSliderFactor raw zoomMap = 1) ∧
    (|factorFromSlider (clampR ((round raw : ℤ) : ℝ) 0 zoomMap.steps) zoomMap - 1| ≤ 0.1 →
      applyFromSliderFactor raw zoomMap = 1) := by
  constructor
  · intro h
    unfold currentSliderFactor
    simp only [snapRange]
    rw [if_pos h]
  · intro h
    unfold applyFromSliderFactor
    simp only [snapRange]
    rw [if_pos h]

/-- Witness for C6 at the concrete slider position 100 (the midpoint), where the
mapped factor is exactly 1. -/
theorem C6_snap_law_witness :
    currentSliderFactor 100 zoomMap = 1 ∧ applyFromSliderFactor 100 zoomMap = 1 := by
  have hmap : zoomMap.mid = 100 := by
    unfold zoomMap createBiLogMapping; norm_num
  have hsteps : zoomMap.steps = 200 := by
    unfold zoomMap createBiLogMapping; norm_num
  have hclamp : clampR 100 0 zoomMap.steps = 100 := by
    rw [hsteps]; exact clampR_self_of_mem (by norm_num) (by norm_num)
  have hf : factorFromSlider 100 zoomMap = 1 := by
    unfold factorFromSlider
    simp only [hclamp, hmap]
    norm_num
  have hround : ((round (100 : ℝ) : ℤ) : ℝ) = 100 := by
    norm_num
  constructor
  · exact (C6_snap_law 100).1 (by rw [hf]; norm_num)
  · exact (C6_snap_law 100).2 (by rw [hround, hclamp, hf]; norm_num)

/-! ## Helper lemmas: clamp bounds and zero propagation through the FFT -/

theorem clampR_unit_mem (v : ℝ) : 0 ≤ clampR v 0 1 ∧ clampR v 0 1 ≤ 1 := by
  unfold clampR
  exact ⟨le_min (by norm_num) (le_max_left 0 v), min_le_left _ _⟩

theorem normalizeCell_mem (p m : ℝ) : 0 ≤ normalizeCell p m ∧ normalizeCell p m ≤ 1 := by
  unfold normalizeCell
  exact clampR_unit_mem _

theorem foldl_preserve {α β : Type} {P : α → Prop} {f : α → β → α}
    (hf : ∀ a b, P a → P (f a b)) :
    ∀ (l : List β) (a : α), P a → P (l.foldl f a) := by
  intro l
  induction l with
  | nil => intro a h; exact h
  | cons x xs ih => intro a h; exact ih _ (hf a x h)

theorem zero_getD {l : List ℝ} (h : ZeroList l) (i : ℕ) : l.getD i 0 = 0 := by
  induction l generalizing i with
  | nil => rfl
  | cons y ys ih =>
    cases i with
    | zero => exact h y (List.mem_cons_self y ys)
    | succ j => exact ih (fun x hx => h x (List.mem_cons_of_mem y hx)) j

theorem zero_set {l : List ℝ} (h : ZeroList l) (i : ℕ) : ZeroList (l.set i 0) := by
  intro x hx
  rcases List.mem_or_eq_of_mem_set hx with hmem | hval
  · exact h x hmem
  · exact hval

theorem zero_set' {l : List ℝ} (h : ZeroList l) {v : ℝ} (hv : v = 0) (i : ℕ) :
    ZeroList (l.set i v) := by
  subst hv
  exact zero_set h i

theorem zero_swapAt {l : List ℝ} (h : ZeroList l) (i j : ℕ) : ZeroList (swapAt l i j) := by
  unfold swapAt
  exact zero_set' (zero_set' h (zero_getD h j) i) (zero_getD h i) j

theorem zero_butterfly {s : FFTState} (h : ZeroState s) (i1 i2 : ℕ) (c sn : ℝ) :
    ZeroState (butterfly s i1 i2 c sn) := by
  obtain ⟨h1, h2⟩ := h
  have hre1 : ZeroList (s.1.set i2
      (s.1.getD i1 0 - (s.1.getD i2 0 * c - s.2.getD i2 0 * sn))) := by
    refine zero_set' h1 ?_ i2
    rw [zero_getD h1, zero_getD h1, zero_getD h2]; ring
  have him1 : ZeroList (s.2.set i2
      (s.2.getD i1 0 - (s.1.getD i2 0 * sn + s.2.getD i2 0 * c))) := by
    refine zero_set' h2 ?_ i2
    rw [zero_getD h2, zero_getD h1, zero_getD h2]; ring
  refine ⟨zero_set' hre1 ?_ i1, zero_set' him1 ?_ i1⟩
  · rw [zero_getD hre1, zero_getD h1, zero_getD h2]; ring
  · rw [zero_getD him1, zero_getD h1, zero_getD h2]; ring

theorem zero_fftPermute {s : FFTState} (h : ZeroState s) (n levels : ℕ) :
    ZeroState (fftPermute n levels s) := by
  unfold fftPermute
  refine foldl_preserve (fun a b ha => ?_) _ _ h
  dsimp only
  split
  · exact ⟨zero_swapAt ha.1 _ _, zero_swapAt ha.2 _ _⟩
  · exact ha

theorem zero_cpuStagePass {s : FFTState} (h : ZeroState s) (n len : ℕ) :
    ZeroState (cpuStagePass n len s) := by
  unfold cpuStagePass
  refine @foldl_preserve FFTState ℕ ZeroState _ ?_ _ _ h
  intro a b ha
  exact @foldl_preserve FFTState ℕ ZeroState _
    (fun a2 b2 ha2 => zero_butterfly ha2 _ _ _ _) _ a ha

theorem zero_fftTransform {s : FFTState} (h : ZeroState s) (n : ℕ) :
    ZeroState (fftTransform n s) := by
  unfold fftTransform
  exact @foldl_preserve FFTState ℕ ZeroState _
    (fun a b ha => zero_cpuStagePass ha n b) _ _ (zero_fftPermute h n _)

theorem zero_gpuStagePass {s : FFTState} (h : ZeroState s) (m : ℕ) :
    ZeroState (gpuStagePass m s) := by
  unfold gpuStagePass
  refine foldl_preserve (fun a b ha => ?_) _ _ h
  dsimp only
  split
  · exact zero_butterfly ha _ _ _ _
  · exact ha

set_option maxRecDepth 4000 in
theorem zero_gpuFftFrame {input : List ℝ} (h : ZeroList input) :
    ZeroState (gpuFftFrame input) := by
  unfold gpuFftFrame
  have h0 : ZeroState (input, (List.range 1024).map (fun _ => (0 : ℝ))) := by
    refine ⟨h, fun x hx => ?_⟩
    simp only [List.mem_map] at hx
    obtain ⟨i, _, hxe⟩ := hx
    exact hxe.symm
  have hperm : ZeroState ((List.range 1024).foldl (fun st i =>
      let j := bitrev 10 i
      if i < j then (swapAt st.1 i j, swapAt st.2 i j) else st)
      (input, (List.range 1024).map (fun _ => (0 : ℝ)))) := by
    refine @foldl_preserve FFTState ℕ ZeroState _ ?_ _ _ h0
    intro a b ha
    dsimp only
    split
    · exact ⟨zero_swapAt ha.1 _ _, zero_swapAt ha.2 _ _⟩
    · exact ha
  exact @foldl_preserve FFTState ℕ ZeroState _
    (fun a b ha => zero_gpuStagePass ha b) _ _ hperm

theorem zero_peakOf {l : List ℝ} (h : ZeroList l) : peakOf l = 1e-9 := by
  unfold peakOf
  induction l with
  | nil => rfl
  | cons x xs ih =>
    have hx : x = 0 := h x (List.mem_cons_self x xs)
    have hxs : ZeroList xs := fun y hy => h y (List.mem_cons_of_mem x hy)
    simp only [List.foldl_cons, hx]
    rw [if_neg (by norm_num)]
    exact ih hxs

theorem normalizeCell_silent : normalizeCell 1e-9 0 = 0 := by
  unfold normalizeCell minDb clampR
  have h0 : (0 : ℝ) / 1e-9 + 1e-12 = 1e-12 := by norm_num
  rw [h0]
  have hlogb : Real.logb 10 (1e-12 : ℝ) = -12 := by
    have he : (1e-12 : ℝ) = (10 : ℝ) ^ (-12 : ℤ) := by norm_num
    have hln : Real.log 10 ≠ 0 := ne_of_gt (Real.log_pos (by norm_num))
    rw [he, Real.logb, Real.log_zpow]
    field_simp
  rw [hlogb]
  norm_num

/-! ## Helper lemmas: the pipeline on an all-zero buffer -/

theorem zero_monoAt {b : AudioBuffer} (hb : ZeroBuffer b) (s i : ℕ) : monoAt b s i = 0 := by
  unfold monoAt
  have hsum : (b.channels.map (fun ch => ch (s + i))).sum = 0 := by
    apply List.sum_eq_zero
    intro x hx
    rcases List.mem_map.mp hx with ⟨ch, hch, rfl⟩
    exact hb ch hch (s + i)
  rw [hsum, zero_mul]

theorem zero_cpuFrameInput {b : AudioBuffer} (hb : ZeroBuffer b)
    (ss sl n hop f : ℕ) : ZeroState (cpuFrameInput b ss sl n hop f) := by
  constructor
  · intro x hx
    unfold cpuFrameInput at hx
    rcases List.mem_map.mp hx with ⟨i, _, rfl⟩
    split
    · rw [zero_monoAt hb, zero_mul]
    · rw [zero_mul]
  · intro x hx
    unfold cpuFrameInput at hx
    rcases List.mem_map.mp hx with ⟨i, _, rfl⟩
    rfl

theorem flatMap_const_replicate {α : Type} (l : List α) (k : ℕ) :
    l.flatMap (fun _ => List.replicate k (0 : ℝ)) = List.replicate (l.length * k) 0 := by
  induction l with
  | nil => simp
  | cons x xs ih =>
    rw [List.flatMap_cons, ih, ← List.replicate_add, List.length_cons, Nat.succ_mul,
      Nat.add_comm]

theorem cpuFrameMags_zeroBuf {b : AudioBuffer} (hb : ZeroBuffer b)
    (ss sl n hop f : ℕ) :
    cpuFrameMags b ss sl n hop f = List.replicate (n / 2) 0 := by
  have hz := zero_fftTransform (zero_cpuFrameInput hb ss sl n hop f) n
  unfold cpuFrameMags
  refine List.eq_replicate_iff.mpr ⟨by simp, ?_⟩
  intro x hx
  rcases List.mem_map.mp hx with ⟨bb, _, rfl⟩
  rw [zero_getD hz.1, zero_getD hz.2]
  simp

theorem cpuRawData_zeroBuf {b : AudioBuffer} (hb : ZeroBuffer b)
    (ss sl n hop frames : ℕ) :
    cpuRawData b ss sl n hop frames = List.replicate (frames * (n / 2)) 0 := by
  unfold cpuRawData
  rw [funext (fun f => cpuFrameMags_zeroBuf hb ss sl n hop f),
    flatMap_const_replicate, List.length_range]

theorem zero_gpuFrameInput {b : AudioBuffer} (hb : ZeroBuffer b)
    (ss es n hop f : ℕ) : ZeroList (gpuFrameInput b ss es n hop f) := by
  intro x hx
  unfold gpuFrameInput at hx
  rcases List.mem_map.mp hx with ⟨i, _, rfl⟩
  have hsum : (b.channels.map (fun ch => ch (ss + f * hop + i))).sum = 0 := by
    apply List.sum_eq_zero
    intro y hy
    rcases List.mem_map.mp hy with ⟨ch, hch, rfl⟩
    exact hb ch hch _
  split
  · rw [hsum, zero_div, zero_mul]
  · rw [zero_mul]

theorem gpuFrameMags_zeroBuf {b : AudioBuffer} (hb : ZeroBuffer b)
    (ss es hop f : ℕ) :
    gpuFrameMags b ss es hop f = List.replicate 512 0 := by
  have hz := zero_gpuFftFrame (zero_gpuFrameInput hb ss es 1024 hop f)
  unfold gpuFrameMags
  refine List.eq_replicate_iff.mpr ⟨by simp, ?_⟩
  intro x hx
  rcases List.mem_map.mp hx with ⟨bb, _, rfl⟩
  rw [zero_getD hz.1, zero_getD hz.2]
  simp

theorem gpuRawData_zeroBuf {b : AudioBuffer} (hb : ZeroBuffer b)
    (ss es hop frames : ℕ) :
    (List.range frames).flatMap (fun f => gpuFrameMags b ss es hop f) =
      List.replicate (frames * 512) 0 := by
  rw [funext (fun f => gpuFrameMags_zeroBuf hb ss es hop f),
    flatMap_const_replicate, List.length_range]

theorem silenceBuffer_zero : ZeroBuffer silenceBuffer := by
  intro ch hch i
  unfold silenceBuffer at hch
  rcases List.mem_singleton.mp hch with rfl
  rfl

/-! ## Helper lemmas: the silence scenario end to end -/

theorem silence_segmentLen : segmentLen silenceBuffer 0 2 = 96000 := by
  unfold segmentLen endSampleZ startSampleZ silenceBuffer
  norm_num
  rfl

theorem silence_frames : framesFormulaZ 96000 960 1024 = 99 := by
  unfold framesFormulaZ
  have h : (((96000 : ℕ) : ℚ) - ((1024 : ℕ) : ℚ)) / ((960 : ℕ) : ℚ) = 94976 / 960 := by
    norm_num
  rw [h]
  have hfl : ⌊(94976 / 960 : ℚ)⌋ = 98 := by
    rw [Int.floor_eq_iff]
    norm_num
  rw [hfl]
  norm_num

theorem cpu_silence_eq :
    computeSpectrogramCPU silenceBuffer 0 2 960 1024 = Except.ok silenceSpec := by
  have hss : (startSampleZ 0 silenceBuffer.sampleRate).toNat = 0 := by
    unfold startSampleZ silenceBuffer
    norm_num
  have hraw := cpuRawData_zeroBuf silenceBuffer_zero 0 96000 1024 960 99
  have hzraw : ZeroList (List.replicate (99 * (1024 / 2)) (0 : ℝ)) := by
    intro x hx
    exact List.eq_of_mem_replicate hx
  unfold computeSpectrogramCPU
  rw [silence_segmentLen, hss]
  dsimp only
  rw [silence_frames]
  rw [if_neg (by norm_num), if_neg (by norm_num), if_neg (by decide)]
  rw [show ((99 : ℤ)).toNat = 99 from rfl]
  rw [hraw, zero_peakOf hzraw, List.map_replicate, normalizeCell_silent]
  unfold silenceSpec AudioBuffer.durationQ silenceBuffer
  norm_num

theorem gpu_silence_eq :
    computeSpectrogramWebGPU silenceBuffer 0 2 960 1024 = some gpuSilenceSpec := by
  have hss : (startSampleZ 0 silenceBuffer.sampleRate).toNat = 0 := by
    unfold startSampleZ silenceBuffer
    norm_num
  have hes : (endSampleZ silenceBuffer 0 2).toNat = 96000 := by
    unfold endSampleZ silenceBuffer
    norm_num
    rfl
  have hraw := gpuRawData_zeroBuf silenceBuffer_zero 0 96000 960 99
  have hzraw : ZeroList (List.replicate (99 * 512) (0 : ℝ)) := by
    intro x hx
    exact List.eq_of_mem_replicate hx
  unfold computeSpectrogramWebGPU
  rw [if_neg (by norm_num)]
  rw [silence_segmentLen, hss, hes]
  dsimp only
  rw [silence_frames]
  rw [show ((1 : ℤ) ⊔ 99) = 99 by norm_num]
  rw [if_neg (by norm_num)]
  rw [show ((99 : ℤ)).toNat = 99 from rfl]
  rw [hraw, zero_peakOf hzraw, List.map_replicate, normalizeCell_silent]
  unfold gpuSilenceSpec AudioBuffer.durationQ silenceBuffer
  norm_num

/-! ## Helper lemmas: lengths and frame-count positivity -/

theorem length_flatMap_const {α : Type} (l : List α) (g : α → List ℝ) (k : ℕ)
    (hg : ∀ a, (g a).length = k) : (l.flatMap g).length = l.length * k := by
  induction l with
  | nil => simp
  | cons x xs ih =>
    rw [List.flatMap_cons, List.length_append, ih, hg, List.length_cons, Nat.succ_mul,
      Nat.add_comm]

theorem cpuFrameMags_length (b : AudioBuffer) (ss sl n hop f : ℕ) :
    (cpuFrameMags b ss sl n hop f).length = n / 2 := by
  unfold cpuFrameMags
  simp

theorem cpuRawData_length (b : AudioBuffer) (ss sl n hop frames : ℕ) :
    (cpuRawData b ss sl n hop frames).length = frames * (n / 2) := by
  unfold cpuRawData
  rw [length_flatMap_const _ _ (n / 2) (fun a => cpuFrameMags_length b ss sl n hop a),
    List.length_range]

theorem gpuFrameMags_length (b : AudioBuffer) (ss es hop f : ℕ) :
    (gpuFrameMags b ss es hop f).length = 512 := by
  unfold gpuFrameMags
  simp

theorem framesFormulaZ_pos {segLen hop fft : ℕ} (h : fft ≤ segLen) :
    1 ≤ framesFormulaZ segLen hop fft := by
  unfold framesFormulaZ
  have hcast : ((fft : ℚ)) ≤ (segLen : ℚ) := by exact_mod_cast h
  have hq : (0 : ℚ) ≤ ((segLen : ℚ) - fft) / hop :=
    div_nonneg (sub_nonneg.mpr hcast) (by positivity)
  have := Int.floor_nonneg.mpr hq
  omega

/-! ## Claim C1: every output cell lies in the unit interval -/

/-- Claim C1: for every valid input on which the spectrogram builder succeeds,
every cell of the returned data array lies in [0, 1], for both the CPU path
(computeSpectrogramCPU) and the GPU path (computeSpectrogramWebGPU) after
their log-normalization passes. -/
theorem C1_cells_in_unit_interval (b : AudioBuffer) (start duration : ℚ)
    (hopSize fftSize : ℕ) (s : Spectrogram) :
    (computeSpectrogramCPU b start duration hopSize fftSize = Except.ok s →
      ∀ x ∈ s.data, 0 ≤ x ∧ x ≤ 1) ∧
    (computeSpectrogramWebGPU b start duration hopSize fftSize = some s →
      ∀ x ∈ s.data, 0 ≤ x ∧ x ≤ 1) := by
  constructor
  · intro h x hx
    unfold computeSpectrogramCPU at h
    dsimp only at h
    split at h
    · exact absurd h (by simp)
    · split at h
      · exact absurd h (by simp)
      · split at h
        · exact absurd h (by simp)
        · injection h with h'
          subst h'
          rcases List.mem_map.mp hx with ⟨m, _, rfl⟩
          exact normalizeCell_mem _ m
  · intro h x hx
    unfold computeSpectrogramWebGPU at h
    dsimp only at h
    split at h
    · exact absurd h (by simp)
    · split at h
      · exact absurd h (by simp)
      · injection h with h'
        subst h'
        rcases List.mem_map.mp hx with ⟨m, _, rfl⟩
        exact normalizeCell_mem _ m

/-- Witness for C1 at the silence scenario, on both paths, evaluated at the cell
value 0 (a member of both data arrays). -/
theorem C1_cells_in_unit_interval_witness :
    (0 : ℝ) ∈ silenceSpec.data ∧ (0 : ℝ) ∈ gpuSilenceSpec.data ∧
    0 ≤ (0 : ℝ) ∧ (0 : ℝ) ≤ 1 := by
  have h1 := (C1_cells_in_unit_interval silenceBuffer 0 2 960 1024 silenceSpec).1
    cpu_silence_eq
  have h2 := (C1_cells_in_unit_interval silenceBuffer 0 2 960 1024 gpuSilenceSpec).2
    gpu_silence_eq
  have hm1 : (0 : ℝ) ∈ silenceSpec.data := by
    show (0 : ℝ) ∈ List.replicate (99 * 512) 0
    exact List.mem_replicate.mpr ⟨by norm_num, rfl⟩
  have hm2 : (0 : ℝ) ∈ gpuSilenceSpec.data := by
    show (0 : ℝ) ∈ List.replicate (99 * 512) 0
    exact List.mem_replicate.mpr ⟨by norm_num, rfl⟩
  exact ⟨hm1, hm2, (h1 _ hm1).1, (h2 _ hm2).2⟩

/-! ## Claim C2: frame count and data length -/

/-- Claim C2: for every valid input on which the builder succeeds, the returned
frames field equals floor((segment_length - fft_size) / hop_size) + 1 with
segment_length the clamped sample count of the requested region, and the
returned data array has length frames * (fft_size / 2), on both paths. -/
theorem C2_frames_and_length (b : AudioBuffer) (start duration : ℚ)
    (hopSize fftSize : ℕ) (s : Spectrogram) :
    (computeSpectrogramCPU b start duration hopSize fftSize = Except.ok s →
      (s.frames : ℤ) = framesFormulaZ (segmentLen b start duration) hopSize fftSize ∧
      s.data.length = s.frames * (fftSize / 2)) ∧
    (computeSpectrogramWebGPU b start duration hopSize fftSize = some s →
      (s.frames : ℤ) = framesFormulaZ (segmentLen b start duration) hopSize fftSize ∧
      s.data.length = s.frames * (fftSize / 2)) := by
  constructor
  · intro h
    unfold computeSpectrogramCPU at h
    dsimp only at h
    split at h
    · exact absurd h (by simp)
    · rename_i hseg
      split at h
      · exact absurd h (by simp)
      · rename_i hfr
        split at h
        · exact absurd h (by simp)
        · injection h with h'
          subst h'
          constructor
          · exact Int.toNat_of_nonneg (by omega)
          · rw [List.length_map, cpuRawData_length]
  · intro h
    unfold computeSpectrogramWebGPU at h
    dsimp only at h
    split at h
    · exact absurd h (by simp)
    · rename_i hfft
      split at h
      · exact absurd h (by simp)
      · rename_i hcond
        push_neg at hcond
        have hseg : fftSize ≤ segmentLen b start duration := hcond.2
        have hpos : 1 ≤ framesFormulaZ (segmentLen b start duration) hopSize fftSize :=
          framesFormulaZ_pos hseg
        injection h with h'
        subst h'
        have hmax : (1 : ℤ) ⊔ framesFormulaZ (segmentLen b start duration) hopSize fftSize =
            framesFormulaZ (segmentLen b start duration) hopSize fftSize :=
          max_eq_right hpos
        constructor
        · dsimp only
          rw [hmax, Int.toNat_of_nonneg (by omega)]
        · dsimp only
          rw [List.length_map,
            length_flatMap_const _ _ 512 (fun a => gpuFrameMags_length b _ _ hopSize a),
            List.length_range]
          have h1024 : fftSize = 1024 := by omega
          subst h1024
          rfl

/-- Witness for C2 at the silence scenario, on both paths. -/
theorem C2_frames_and_length_witness :
    ((silenceSpec.frames : ℤ) = framesFormulaZ (segmentLen silenceBuffer 0 2) 960 1024 ∧
      silenceSpec.data.length = silenceSpec.frames * (1024 / 2)) ∧
    ((gpuSilenceSpec.frames : ℤ) = framesFormulaZ (segmentLen silenceBuffer 0 2) 960 1024 ∧
      gpuSilenceSpec.data.length = gpuSilenceSpec.frames * (1024 / 2)) :=
  ⟨(C2_frames_and_length silenceBuffer 0 2 960 1024 silenceSpec).1 cpu_silence_eq,
   (C2_frames_and_length silenceBuffer 0 2 960 1024 gpuSilenceSpec).2 gpu_silence_eq⟩

/-! ## Claim C3: the InsufficientLength error condition -/

/-- Claim C3: the builder fails with the InsufficientLength error class (and
produces no Spectrogram) exactly when the clamped segment is shorter than
fft_size samples or the computed frame count is less than 1; in particular a
512-sample PCM with fft 1024 yields that error. -/
theorem C3_insufficient_length (b : AudioBuffer) (start duration : ℚ)
    (hopSize fftSize : ℕ) :
    ((∃ e, computeSpectrogramCPU b start duration hopSize fftSize = Except.error e ∧
        e.isInsufficient = true) ↔
      (segmentLen b start duration < fftSize ∨
        framesFormulaZ (segmentLen b start duration) hopSize fftSize < 1)) ∧
    computeSpectrogramCPU shortBuffer 0 shortBuffer.durationQ 960 1024 =
      Except.error SpecError.segmentTooShort := by
  constructor
  · by_cases hseg : segmentLen b start duration < fftSize
    · constructor
      · intro _
        exact Or.inl hseg
      · intro _
        refine ⟨SpecError.segmentTooShort, ?_, rfl⟩
        unfold computeSpectrogramCPU
        dsimp only
        rw [if_pos hseg]
    · have hpos : 1 ≤ framesFormulaZ (segmentLen b start duration) hopSize fftSize :=
        framesFormulaZ_pos (le_of_not_lt hseg)
      constructor
      · rintro ⟨e, he, hins⟩
        unfold computeSpectrogramCPU at he
        dsimp only at he
        rw [if_neg hseg, if_neg (by omega)] at he
        split at he
        · injection he with he'
          subst he'
          exact absurd hins (by simp [SpecError.isInsufficient])
        · exact absurd he (by simp)
      · rintro (h1 | h2)
        · exact absurd h1 hseg
        · omega
  · have hseg : segmentLen shortBuffer 0 shortBuffer.durationQ = 512 := by
      unfold segmentLen endSampleZ startSampleZ shortBuffer AudioBuffer.durationQ
      norm_num
      rfl
    unfold computeSpectrogramCPU
    dsimp only
    rw [hseg, if_pos (by norm_num)]

/-! ## Claim C4: the silence scenario (corrected frame count) -/

/-- Counterexample to claim C4 as stated: on 2 seconds of zeros at 48000 Hz with
hop 960 and fft 1024, the builder succeeds but returns 99 frames, not 100
(floor((96000 - 1024) / 960) + 1 = 98 + 1 = 99). -/
theorem C4_counterexample :
    computeSpectrogramCPU silenceBuffer 0 2 960 1024 = Except.ok silenceSpec ∧
    silenceSpec.frames ≠ 100 :=
  ⟨cpu_silence_eq, by norm_num [silenceSpec]⟩

/-- Claim C4 as amended: on the silence scenario the builder returns a
Spectrogram with frames = 99 (not 100) and every output cell equal to 0 after
normalization. -/
theorem C4_silence_scenario :
    computeSpectrogramCPU silenceBuffer 0 2 960 1024 = Except.ok silenceSpec ∧
    silenceSpec.frames = 99 ∧
    silenceSpec.data = List.replicate (99 * 512) 0 ∧
    ∀ x ∈ silenceSpec.data, x = 0 := by
  refine ⟨cpu_silence_eq, rfl, rfl, ?_⟩
  intro x hx
  exact List.eq_of_mem_replicate hx

/-! ## Claim C7: a matching cached hi-res tile is reused -/

/-- Claim C7: whenever a cached hi-res tile already covers the current view (its
stored window matches (view_start, view_duration) within 1/60 s and it was
built with the current hop target) and hi-res is warranted, the tile manager
reuses it: maybeRequestHiRes issues no new build and leaves the state
untouched, and drawSpectrogram's selection renders the cached tile. -/
theorem C7_hires_reuse (st : TileState) (enabled hasAudio : Bool) (sr : ℕ)
    (totalDur spp baseSPP viewStart viewDuration ppsCss now : ℚ)
    (hwarranted : shouldUseHiRes st spp baseSPP ppsCss = true)
    (hmatch : hiResMatches st.hiResSpec viewStart viewDuration (hopTarget sr ppsCss) = true) :
    maybeRequestHiRes st enabled hasAudio sr totalDur spp baseSPP viewStart viewDuration
      ppsCss now = (st, none) ∧
    selectedSpec st spp baseSPP viewStart viewDuration ppsCss sr = st.hiResSpec ∧
    st.hiResSpec.isSome = true := by
  have hsome : st.hiResSpec.isSome = true := by
    cases hs : st.hiResSpec with
    | none => rw [hs] at hmatch; simp [hiResMatches] at hmatch
    | some s => rfl
  refine ⟨?_, ?_, hsome⟩
  · unfold maybeRequestHiRes
    rw [if_neg (by simp [hwarranted])]
    by_cases h2 : hasAudio
    · rw [if_neg (by simp [h2])]
      by_cases h3 : 0 < totalDur
      · rw [if_neg (by simp [h3])]
        dsimp only
        rw [if_pos hmatch]
      · rw [if_pos h3]
    · rw [if_pos (by simp [h2])]
  · unfold selectedSpec
    dsimp only
    rw [hwarranted, hmatch]
    simp [hsome]

/-- Witness for C7: concrete state in which the cached tile covers the view
(1, 2) at ppsCss = 250 (hop target 128) and hi-res is warranted. -/
theorem C7_hires_reuse_witness :
    maybeRequestHiRes demoTileState true true 48000 10 256 2048 1 2 250 1000 =
      (demoTileState, none) ∧
    selectedSpec demoTileState 256 2048 1 2 250 48000 = some demoHiResSpec := by
  have hhop : hopTarget 48000 250 = 128 := by
    unfold hopTarget floorPow2
    have h1 : ⌊((48000 : ℕ) : ℚ) / 250⌋.toNat = 192 := by norm_num; rfl
    rw [h1, show Nat.log 2 192 = 7 from
      Nat.log_eq_of_pow_le_of_lt_pow (by norm_num) (by norm_num)]
    decide
  have hwar : shouldUseHiRes demoTileState 256 2048 250 = true := by
    unfold shouldUseHiRes demoTileState demoFullSpec
    norm_num
  have hmatch : hiResMatches demoTileState.hiResSpec 1 2 (hopTarget 48000 250) = true := by
    rw [hhop]
    unfold demoTileState hiResMatches demoHiResSpec
    norm_num
  have h := C7_hires_reuse demoTileState true true 48000 10 256 2048 1 2 250 1000 hwar hmatch
  exact ⟨h.1, h.2.1⟩

/-! ## Claim C8: token discipline of builder completions -/

/-- Claim C8: a completed builder run is installed only when its request token
still equals the latest-issued token; a stale run is discarded with no change
to the installed spectrogram (only the pending flag is cleared); and over any
sequence of issue/complete events the installed token never decreases, so no
installed spectrogram carries a token less than one already installed. -/
theorem C8_token_discipline :
    (∀ (st : TileState) (token : ℕ) (spec : Spectrogram), token ≠ st.hiResRequestId →
      hiResComplete st token (some spec) = { st with hiResPending := false }) ∧
    (∀ (st : TileState) (spec : Spectrogram),
      (hiResComplete st st.hiResRequestId (some spec)).hiResSpec = some spec) ∧
    (∀ (s : TokenState) (evs : List TokenEvent), s.inv →
      (tokenRun s evs).inv ∧
        s.installedToken.getD 0 ≤ (tokenRun s evs).installedToken.getD 0) := by
  refine ⟨?_, ?_, ?_⟩
  · intro st token spec h
    simp only [hiResComplete]
    rw [if_pos h]
  · intro st spec
    simp only [hiResComplete]
    rw [if_neg (by simp)]
  · intro s evs
    induction evs generalizing s with
    | nil => intro h; exact ⟨h, le_refl _⟩
    | cons e evs ih =>
      intro h
      have hstep : (tokenStep s e).inv ∧
          s.installedToken.getD 0 ≤ (tokenStep s e).installedToken.getD 0 := by
        cases e with
        | issue =>
          simp only [tokenStep]
          unfold TokenState.inv at h ⊢
          dsimp only at h ⊢
          exact ⟨by omega, le_refl _⟩
        | complete t =>
          simp only [tokenStep]
          by_cases ht : t = s.latest
          · rw [if_pos ht]
            unfold TokenState.inv at h ⊢
            dsimp only at h ⊢
            subst ht
            simp only [Option.getD_some]
            exact ⟨le_refl _, h⟩
          · rw [if_neg ht]
            exact ⟨h, le_refl _⟩
      have hrun := ih (tokenStep s e) hstep.1
      simp only [tokenRun, List.foldl_cons] at hrun ⊢
      exact ⟨hrun.1, le_trans hstep.2 hrun.2⟩

/-- Witness for C8: a stale completion (token 7, latest 5) is discarded, a fresh
completion installs, and a concrete issue/complete trace keeps the invariant. -/
theorem C8_token_discipline_witness :
    hiResComplete demoTileState 7 (some demoHiResSpec) =
      { demoTileState with hiResPending := false } ∧
    (hiResComplete demoTileState 5 (some demoHiResSpec)).hiResSpec = some demoHiResSpec ∧
    (tokenRun ⟨0, none⟩ [TokenEvent.issue, TokenEvent.complete 1]).inv := by
  have h := C8_token_discipline
  refine ⟨h.1 demoTileState 7 demoHiResSpec (by decide), h.2.1 demoTileState demoHiResSpec,
    (h.2.2 ⟨0, none⟩ [TokenEvent.issue, TokenEvent.complete 1] ?_).1⟩
  unfold TokenState.inv
  simp

/-! ## Claim C9: the renderer clears and returns on null or empty input -/

/-- Claim C9: the renderer never fails: with a null active spectrogram, or one
with zero frames or zero bins, drawSpectrogram leaves the target pixel buffer
cleared and writes no spectrogram pixels. -/
theorem C9_renderer_clears (st : TileState)
    (spp baseSPP viewStart viewDuration ppsCss dpr : ℚ) (sr width height : ℕ)
    (h : st.spectrogram = none ∨
      ∃ sp, st.spectrogram = some sp ∧ (sp.frames = 0 ∨ sp.bins = 0)) :
    drawSpectrogramModel st spp baseSPP viewStart viewDuration ppsCss dpr sr width height =
      clearedImage width height := by
  rcases h with hnone | ⟨sp, hsp, hfb⟩
  · unfold drawSpectrogramModel
    rw [hnone]
  · unfold drawSpectrogramModel
    rw [hsp]
    dsimp only
    rw [if_pos hfb]

/-- Witness for C9: the empty tile state renders a cleared 800 by 600 buffer. -/
theorem C9_renderer_clears_witness :
    drawSpectrogramModel emptyTileState 256 2048 0 1 250 1 48000 800 600 =
      clearedImage 800 600 :=
  C9_renderer_clears emptyTileState 256 2048 0 1 250 1 48000 800 600 (Or.inl rfl)

/-! ## Claim C10: CPU-built tiles never match the view cache check -/

/-- Claim C10: every Spectrogram produced by computeSpectrogramCPU omits the
viewStart and viewDuration fields, so hiResMatches is false for it at every
view and hop; a hi-res tile built by the CPU fallback is never recognized as
covering the current view and never reused. -/
theorem C10_cpu_tile_never_matches (b : AudioBuffer) (start duration : ℚ)
    (hopSize fftSize : ℕ) (s : Spectrogram)
    (h : computeSpectrogramCPU b start duration hopSize fftSize = Except.ok s) :
    s.viewStart = none ∧ s.viewDuration = none ∧
    ∀ (vs vd : ℚ) (hop : ℕ), hiResMatches (some s) vs vd hop = false := by
  unfold computeSpectrogramCPU at h
  dsimp only at h
  split at h
  · exact absurd h (by simp)
  · split at h
    · exact absurd h (by simp)
    · split at h
      · exact absurd h (by simp)
      · injection h with h'
        subst h'
        exact ⟨rfl, rfl, fun vs vd hop => rfl⟩

/-- Witness for C10: the silence-run CPU spectrogram is never accepted by
hiResMatches, in particular not at its own window and hop. -/
theorem C10_cpu_tile_never_matches_witness :
    hiResMatches (some silenceSpec) 0 2 960 = false :=
  (C10_cpu_tile_never_matches silenceBuffer 0 2 960 1024 silenceSpec cpu_silence_eq).2.2 0 2 960

/-! ## Claim C5: the bi-log slider round trip

The zoom mapping: slider midpoint 100, factors 0.125 to 256.  Rounding the
slider position to an integer perturbs the exponent by at most 1/2 step out of
100, so the round trip multiplies the factor by base^t with base at most 256
and |t| at most 1/200; since 256^(1/200) is about 1.0281, the round trip is
within 3 percent but not within 1 percent of the input factor. -/

theorem zoomMap_lo : zoomMap.lo = 0.125 := rfl

theorem zoomMap_hi : zoomMap.hi = 256 := rfl

theorem zoomMap_steps : zoomMap.steps = 200 := rfl

theorem zoomMap_mid : zoomMap.mid = 100 := by
  unfold zoomMap createBiLogMapping
  norm_num

theorem rpow_inv200_le_103 {base : ℝ} (hb0 : 0 ≤ base) (hb2 : base ≤ 256) :
    base ^ ((1 : ℝ) / 200) ≤ 1.03 := by
  have h1 : base ^ ((1 : ℝ) / 200) ≤ ((1.03 ^ (200 : ℕ) : ℝ)) ^ ((1 : ℝ) / 200) :=
    Real.rpow_le_rpow hb0 (le_trans hb2 (by norm_num)) (by norm_num)
  have h2 : ((1.03 ^ (200 : ℕ) : ℝ)) ^ ((1 : ℝ) / 200) = 1.03 := by
    rw [← Real.rpow_natCast (1.03 : ℝ) 200,
      ← Real.rpow_mul (by norm_num : (0 : ℝ) ≤ 1.03)]
    rw [show ((200 : ℕ) : ℝ) * ((1 : ℝ) / 200) = 1 by norm_num, Real.rpow_one]
  rw [h2] at h1
  exact h1

theorem rpow_inv200_le_inv097 {base : ℝ} (hb0 : 0 ≤ base) (hb2 : base ≤ 256) :
    base ^ ((1 : ℝ) / 200) ≤ 100 / 97 := by
  have h1 : base ^ ((1 : ℝ) / 200) ≤ (((100 / 97 : ℝ) ^ (200 : ℕ))) ^ ((1 : ℝ) / 200) :=
    Real.rpow_le_rpow hb0 (le_trans hb2 (by norm_num)) (by norm_num)
  have h2 : (((100 / 97 : ℝ) ^ (200 : ℕ))) ^ ((1 : ℝ) / 200) = 100 / 97 := by
    rw [← Real.rpow_natCast ((100 / 97 : ℝ)) 200,
      ← Real.rpow_mul (by norm_num : (0 : ℝ) ≤ (100 / 97 : ℝ))]
    rw [show ((200 : ℕ) : ℝ) * ((1 : ℝ) / 200) = 1 by norm_num, Real.rpow_one]
  rw [h2] at h1
  exact h1

theorem rpow_ratio_bounds {base t : ℝ} (hb1 : 1 ≤ base) (hb2 : base ≤ 256)
    (ht : |t| ≤ 1 / 200) : 0.97 ≤ base ^ t ∧ base ^ t ≤ 1.03 := by
  obtain ⟨htl, htu⟩ := abs_le.mp ht
  have hb0 : (0 : ℝ) ≤ base := by linarith
  have hbpos : (0 : ℝ) < base := by linarith
  constructor
  · have h1 : base ^ (-((1 : ℝ) / 200)) ≤ base ^ t :=
      Real.rpow_le_rpow_of_exponent_le hb1 (by linarith)
    have h2 : base ^ (-((1 : ℝ) / 200)) = (base ^ ((1 : ℝ) / 200))⁻¹ :=
      Real.rpow_neg hb0 _
    have h3 : base ^ ((1 : ℝ) / 200) ≤ 100 / 97 := rpow_inv200_le_inv097 hb0 hb2
    have h4 : (0 : ℝ) < base ^ ((1 : ℝ) / 200) := Real.rpow_pos_of_pos hbpos _
    have h5 : ((100 / 97 : ℝ))⁻¹ ≤ (base ^ ((1 : ℝ) / 200))⁻¹ := inv_anti₀ h4 h3
    have h6 : (0.97 : ℝ) ≤ ((100 / 97 : ℝ))⁻¹ := by norm_num
    calc (0.97 : ℝ) ≤ ((100 / 97 : ℝ))⁻¹ := h6
      _ ≤ (base ^ ((1 : ℝ) / 200))⁻¹ := h5
      _ = base ^ (-((1 : ℝ) / 200)) := h2.symm
      _ ≤ base ^ t := h1
  · exact le_trans (Real.rpow_le_rpow_of_exponent_le hb1 htu)
      (rpow_inv200_le_103 hb0 hb2)

theorem ratio_close {f base t : ℝ} (hf : 0 < f) (hb1 : 1 ≤ base) (hb2 : base ≤ 256)
    (ht : |t| ≤ 1 / 200) : |f * base ^ t - f| ≤ 0.03 * f := by
  obtain ⟨hl, hu⟩ := rpow_ratio_bounds hb1 hb2 ht
  have heq : f * base ^ t - f = f * (base ^ t - 1) := by ring
  rw [heq, abs_mul, abs_of_pos hf]
  have habs : |base ^ t - 1| ≤ 0.03 := abs_le.mpr ⟨by linarith, by linarith⟩
  calc f * |base ^ t - 1| ≤ f * 0.03 := mul_le_mul_of_nonneg_left habs hf.le
    _ = 0.03 * f := mul_comm f 0.03

theorem factorFromSlider_low {v : ℝ} (h0 : 0 ≤ v) (h1 : v ≤ 100) :
    factorFromSlider v zoomMap = (8 : ℝ) ^ (v / 100 - 1) := by
  have hc : clampR v 0 zoomMap.steps = v :=
    clampR_self_of_mem h0 (by rw [zoomMap_steps]; linarith)
  simp only [factorFromSlider]
  rw [hc, zoomMap_mid, zoomMap_lo]
  by_cases hv : v = 100
  · rw [if_pos hv, hv, show (100 : ℝ) / 100 - 1 = 0 by norm_num, Real.rpow_zero]
  · rw [if_neg hv, if_pos (lt_of_le_of_ne h1 hv)]
    rw [show (1 : ℝ) / 0.125 = 8 by norm_num,
      Real.rpow_sub (by norm_num : (0 : ℝ) < 8), Real.rpow_one]
    ring

theorem factorFromSlider_high {v : ℝ} (h0 : 100 ≤ v) (h1 : v ≤ 200) :
    factorFromSlider v zoomMap = (256 : ℝ) ^ ((v - 100) / 100) := by
  have hc : clampR v 0 zoomMap.steps = v :=
    clampR_self_of_mem (by linarith) (by rw [zoomMap_steps]; exact h1)
  simp only [factorFromSlider]
  rw [hc, zoomMap_mid, zoomMap_hi]
  by_cases hv : v = 100
  · rw [if_pos hv, hv, show ((100 : ℝ) - 100) / 100 = 0 by norm_num, Real.rpow_zero]
  · rw [if_neg hv, if_neg (not_lt.mpr h0)]

/-- Counterexample to claim C5 as stated: at f = 256^(1/200) (about 1.0281, inside
[min, max]), sliderFromFactor rounds the half-step position 100.5 up to 101
and factorFromSlider maps 101 to 256^(1/100) = f^2, so the round-trip error is
f - 1 > 1 percent relative. -/
theorem C5_counterexample :
    zoomMap.lo ≤ (256 : ℝ) ^ ((1 : ℝ) / 200) ∧
    (256 : ℝ) ^ ((1 : ℝ) / 200) ≤ zoomMap.hi ∧
    0.01 * ((256 : ℝ) ^ ((1 : ℝ) / 200)) <
      |factorFromSlider ((sliderFromFactor ((256 : ℝ) ^ ((1 : ℝ) / 200)) zoomMap : ℤ) : ℝ)
        zoomMap - (256 : ℝ) ^ ((1 : ℝ) / 200)| := by
  set f : ℝ := (256 : ℝ) ^ ((1 : ℝ) / 200) with hfdef
  have hf101 : (1.01 : ℝ) < f := by
    rw [hfdef]
    have h2 : (1.01 : ℝ) = ((1.01 ^ (200 : ℕ) : ℝ)) ^ ((1 : ℝ) / 200) := by
      rw [← Real.rpow_natCast (1.01 : ℝ) 200,
        ← Real.rpow_mul (by norm_num : (0 : ℝ) ≤ 1.01)]
      rw [show ((200 : ℕ) : ℝ) * ((1 : ℝ) / 200) = 1 by norm_num, Real.rpow_one]
    rw [h2]
    exact Real.rpow_lt_rpow (by positivity) (by norm_num) (by norm_num)
  have hf256 : f ≤ 256 := by
    rw [hfdef]
    calc (256 : ℝ) ^ ((1 : ℝ) / 200) ≤ 256 ^ (1 : ℝ) :=
        Real.rpow_le_rpow_of_exponent_le (by norm_num) (by norm_num)
      _ = 256 := Real.rpow_one 256
  have hfpos : (0 : ℝ) < f := by linarith
  refine ⟨by rw [zoomMap_lo]; linarith, by rw [zoomMap_hi]; exact hf256, ?_⟩
  have hclamp : clampR f zoomMap.lo zoomMap.hi = f :=
    clampR_self_of_mem (by rw [zoomMap_lo]; linarith) (by rw [zoomMap_hi]; exact hf256)
  have hlogf : Real.log f = 1 / 200 * Real.log 256 := by
    rw [hfdef]
    exact Real.log_rpow (by norm_num) _
  have hlog256 : Real.log 256 ≠ 0 := ne_of_gt (Real.log_pos (by norm_num))
  have hsf : sliderFromFactor f zoomMap = 101 := by
    simp only [sliderFromFactor]
    rw [hclamp, zoomMap_mid, zoomMap_lo, zoomMap_hi]
    rw [if_neg (by rw [abs_of_pos (by linarith : (0 : ℝ) < f - 1)]; linarith)]
    rw [if_neg (not_lt.mpr (by linarith : (1 : ℝ) ≤ f))]
    rw [hlogf]
    rw [show (1 : ℝ) / 200 * Real.log 256 / Real.log 256 * 100 = 1 / 2 by
      field_simp
      ring]
    rw [round_eq]
    norm_num
  rw [hsf]
  rw [show (((101 : ℤ)) : ℝ) = 101 by norm_num]
  rw [factorFromSlider_high (by norm_num) (by norm_num)]
  rw [show ((101 : ℝ) - 100) / 100 = (1 : ℝ) / 100 by norm_num]
  have hsq : (256 : ℝ) ^ ((1 : ℝ) / 100) = f * f := by
    rw [hfdef, ← Real.rpow_add (by norm_num : (0 : ℝ) < 256)]
    norm_num
  rw [hsq]
  rw [abs_of_pos (by nlinarith : (0 : ℝ) < f * f - f)]
  nlinarith

/-- Claim C5 as amended: for every factor f in [min, max] of the bi-log mapping,
the round trip factorFromSlider(sliderFromFactor(f)) is within 3 percent of f
(the tight bound is 256^(1/200) - 1, about 2.81 percent; 1 percent does not
hold). -/
theorem C5_roundtrip_within_3pct (f : ℝ) (hf1 : 0.125 ≤ f) (hf2 : f ≤ 256) :
    |factorFromSlider ((sliderFromFactor f zoomMap : ℤ) : ℝ) zoomMap - f| ≤ 0.03 * f := by
  have hfpos : (0 : ℝ) < f := by linarith
  have hclamp : clampR f zoomMap.lo zoomMap.hi = f :=
    clampR_self_of_mem (by rw [zoomMap_lo]; exact hf1) (by rw [zoomMap_hi]; exact hf2)
  simp only [sliderFromFactor]
  rw [hclamp, zoomMap_mid, zoomMap_lo, zoomMap_hi]
  by_cases hA : |f - 1| < 1e-12
  · rw [if_pos hA]
    rw [show (((round (100 : ℝ) : ℤ)) : ℝ) = 100 by norm_num]
    rw [factorFromSlider_low (by norm_num) (by norm_num)]
    rw [show (100 : ℝ) / 100 - 1 = 0 by norm_num, Real.rpow_zero]
    rw [abs_sub_comm]
    linarith [hA]
  · rw [if_neg hA]
    by_cases hB : f < 1
    · rw [if_pos hB]
      set p : ℝ := Real.log (f / 0.125) / Real.log (1 / 0.125) with hp
      set v : ℤ := round (p * 100) with hv
      have hpeq : p = Real.log (8 * f) / Real.log 8 := by
        rw [hp, show f / (0.125 : ℝ) = 8 * f by ring_nf,
          show (1 : ℝ) / (0.125 : ℝ) = 8 by norm_num]
      have hlog8 : (0 : ℝ) < Real.log 8 := Real.log_pos (by norm_num)
      have h8p : (8 : ℝ) ^ p = 8 * f := by
        rw [hpeq, Real.rpow_def_of_pos (by norm_num : (0 : ℝ) < 8)]
        rw [mul_comm, div_mul_cancel₀ _ (ne_of_gt hlog8)]
        exact Real.exp_log (by positivity)
      have hfeq : f = (8 : ℝ) ^ (p - 1) := by
        rw [Real.rpow_sub (by norm_num : (0 : ℝ) < 8), h8p, Real.rpow_one]
        field_simp
      have hp0 : 0 ≤ p := by
        rw [hpeq]
        exact div_nonneg (Real.log_nonneg (by linarith)) hlog8.le
      have hp1 : p < 1 := by
        rw [hpeq, div_lt_one hlog8]
        exact Real.log_lt_log (by positivity) (by linarith)
      have hround : |(v : ℝ) - p * 100| ≤ 1 / 2 := by
        rw [hv, abs_sub_comm]
        exact abs_sub_round (p * 100)
      obtain ⟨hrl, hru⟩ := abs_le.mp hround
      have hv0 : (0 : ℤ) ≤ v := by
        have hcast : (-1 : ℝ) < (v : ℝ) := by nlinarith
        have : (-1 : ℤ) < v := by exact_mod_cast hcast
        omega
      have hv100 : v ≤ 100 := by
        have hcast : ((v : ℝ)) < 101 := by nlinarith
        have : v < (101 : ℤ) := by exact_mod_cast hcast
        omega
      rw [factorFromSlider_low (by exact_mod_cast hv0) (by exact_mod_cast hv100)]
      have hsplit : (8 : ℝ) ^ ((v : ℝ) / 100 - 1) =
          f * (8 : ℝ) ^ (((v : ℝ) - p * 100) / 100) := by
        rw [show ((v : ℝ) / 100 - 1) = (p - 1) + (((v : ℝ) - p * 100) / 100) by ring]
        rw [Real.rpow_add (by norm_num : (0 : ℝ) < 8), ← hfeq]
      rw [hsplit]
      apply ratio_close hfpos (by norm_num) (by norm_num)
      rw [abs_div, abs_of_pos (by norm_num : (0 : ℝ) < (100 : ℝ))]
      rw [show (1 : ℝ) / 200 = (1 / 2) / 100 by norm_num]
      exact div_le_div_of_nonneg_right hround (by norm_num)
    · rw [if_neg hB]
      have hf1' : 1 < f := by
        rcases lt_or_eq_of_le (not_lt.mp hB) with h | h
        · exact h
        · exact absurd (by rw [← h]; norm_num) hA
      set p : ℝ := Real.log f / Real.log 256 with hp
      set v : ℤ := round (100 + p * 100) with hv
      have hlog256 : (0 : ℝ) < Real.log 256 := Real.log_pos (by norm_num)
      have h256p : (256 : ℝ) ^ p = f := by
        rw [hp, Real.rpow_def_of_pos (by norm_num : (0 : ℝ) < 256)]
        rw [mul_comm, div_mul_cancel₀ _ (ne_of_gt hlog256)]
        exact Real.exp_log (by positivity)
      have hp0 : 0 < p := div_pos (Real.log_pos hf1') hlog256
      have hp1 : p ≤ 1 := by
        rw [hp, div_le_one hlog256]
        exact Real.log_le_log (by positivity) hf2
      have hround : |(v : ℝ) - (100 + p * 100)| ≤ 1 / 2 := by
        rw [hv, abs_sub_comm]
        exact abs_sub_round (100 + p * 100)
      obtain ⟨hrl, hru⟩ := abs_le.mp hround
      have hv100 : (100 : ℤ) ≤ v := by
        have hcast : (99 : ℝ) < (v : ℝ) := by nlinarith
        have : (99 : ℤ) < v := by exact_mod_cast hcast
        omega
      have hv200 : v ≤ 200 := by
        have hcast : ((v : ℝ)) < 201 := by nlinarith
        have : v < (201 : ℤ) := by exact_mod_cast hcast
        omega
      rw [factorFromSlider_high (by exact_mod_cast hv100) (by exact_mod_cast hv200)]
      have hsplit : (256 : ℝ) ^ (((v : ℝ) - 100) / 100) =
          f * (256 : ℝ) ^ (((v : ℝ) - (100 + p * 100)) / 100) := by
        rw [show (((v : ℝ) - 100) / 100) = p + (((v : ℝ) - (100 + p * 100)) / 100) by ring]
        rw [Real.rpow_add (by norm_num : (0 : ℝ) < 256), h256p]
      rw [hsplit]
      apply ratio_close hfpos (by norm_num) (by norm_num)
      rw [abs_div, abs_of_pos (by norm_num : (0 : ℝ) < (100 : ℝ))]
      rw [show (1 : ℝ) / 200 = (1 / 2) / 100 by norm_num]
      exact div_le_div_of_nonneg_right hround (by norm_num)

/-- Witness for C5 at the concrete factor 1, which round-trips exactly. -/
theorem C5_roundtrip_within_3pct_witness :
    |factorFromSlider ((sliderFromFactor 1 zoomMap : ℤ) : ℝ) zoomMap - 1| ≤ 0.03 * 1 :=
  C5_roundtrip_within_3pct 1 (by norm_num) (by norm_num)

end Spec2Proof
